import Mathlib

/-!
Verification of the wn-core agent runtime against its natural-language
specification.  The TypeScript sources are shallowly embedded: pure
translation helpers become Lean functions, the stateful agent loop and the
RPC server become explicit state-passing functions, and asynchronous
streams become functions from the list of vendor events to the list of
emitted canonical chunks.  Platform primitives (JSON.parse of streamed
argument fragments, crypto.randomUUID) are passed in as explicit function
parameters.
-/

namespace WnCore

/-- Result type from src/result.ts: discriminated success/failure carrying
either the data or an error string (the error type parameter is String at
every use site relevant here). -/
inductive WnResult (α : Type) where
  | ok (data : α)
  | err (error : String)
deriving Repr

/-- Projection of the ok flag, mirroring the TypeScript field access r.ok. -/
def WnResult.isOk {α : Type} : WnResult α → Bool
  | .ok _ => true
  | .err _ => false

/-- JSON values as produced by JSON.parse / consumed by JSON.stringify.
Objects keep their fields in insertion order, as JavaScript objects do. -/
inductive Json where
  | null
  | bool (b : Bool)
  | num (n : Int)
  | str (s : String)
  | arr (items : List Json)
  | obj (fields : List (String × Json))
deriving Repr

/-- Escape a string for inclusion in a JSON document, as JSON.stringify
does for the characters appearing in this development (backslash, quote,
and the common control characters). -/
def jsonEscape (s : String) : String :=
  String.join (s.data.map (fun c =>
    if c = '\\' then "\\\\"
    else if c = '\"' then "\\\""
    else if c = '\n' then "\\n"
    else if c = '\t' then "\\t"
    else if c = '\r' then "\\r"
    else String.singleton c))

mutual

/-- Serialization of a JSON value to its wire string, mirroring
JSON.stringify (object fields in insertion order, no whitespace). -/
def Json.render : Json → String
  | .null => "null"
  | .bool true => "true"
  | .bool false => "false"
  | .num n => toString n
  | .str s => "\"" ++ jsonEscape s ++ "\""
  | .arr items => "[" ++ Json.renderList items ++ "]"
  | .obj fields => "\x7b" ++ Json.renderFields fields ++ "\x7d"

/-- Comma-separated rendering of a JSON array body. -/
def Json.renderList : List Json → String
  | [] => ""
  | [x] => Json.render x
  | x :: rest => Json.render x ++ "," ++ Json.renderList rest

/-- Comma-separated rendering of a JSON object body. -/
def Json.renderFields : List (String × Json) → String
  | [] => ""
  | [(k, v)] => "\"" ++ jsonEscape k ++ "\":" ++ Json.render v
  | (k, v) :: rest =>
      "\"" ++ jsonEscape k ++ "\":" ++ Json.render v ++ "," ++ Json.renderFields rest

end

/-- Field lookup on a JSON object (first binding wins), used to model
property access msg[k] on a parsed JSON value; none models undefined. -/
def Json.lookup : Json → String → Option Json
  | .obj fields, k => fields.lookup k
  | _, _ => none

/-- Membership test for a key, modelling the JavaScript `k in obj` check. -/
def Json.hasKey : Json → String → Bool
  | .obj fields, k => fields.any (fun f => f.1 = k)
  | _, _ => false

/-! ### Canonical message and tool model (src/providers/types.ts, src/tools/types.ts) -/

/-- Message roles of the canonical model. -/
inductive Role where
  | user
  | assistant
  | system
deriving Repr, DecidableEq

/-- Wire name of a role, as the string literals used throughout the code. -/
def Role.toStr : Role → String
  | .user => "user"
  | .assistant => "assistant"
  | .system => "system"

/-- ToolCall record: id, name and decoded argument mapping. -/
structure ToolCall where
  id : String
  toolName : String
  arguments : List (String × Json)
deriving Repr

/-- Canonical conversation message.  Optional fields model the optional
TypeScript properties; none models an absent property. -/
structure Message where
  role : Role
  content : String
  toolCalls : Option (List ToolCall) := none
  toolCallId : Option String := none
  resultName : Option String := none
deriving Repr

/-- Token usage record normalized by every adapter. -/
structure TokenUsage where
  inputTokens : Int
  outputTokens : Int
deriving Repr, DecidableEq

/-- Provider response for one complete round trip. -/
structure LLMResponse where
  content : String
  toolCalls : Option (List ToolCall) := none
  usage : Option TokenUsage := none
deriving Repr

/-- Result of one tool execution. -/
structure ToolResult where
  ok : Bool
  output : String
  error : Option String := none
deriving Repr

/-- Tool definition: metadata plus the execute function (modelled as a
pure function from the decoded arguments to the ToolResult). -/
structure ToolDefinition where
  toolName : String
  description : String
  parameters : Json
  execute : List (String × Json) → ToolResult

/-- Tool advertised to the LLM (name, description, JSON-schema parameters). -/
structure Tool where
  toolName : String
  description : String
  parameters : Json
deriving Repr

/-- Canonical stream chunk: incremental text, a reassembled tool call, or
the terminal done chunk with optional usage. -/
inductive StreamChunk where
  | delta (content : String)
  | toolCall (tc : ToolCall)
  | done (usage : Option TokenUsage)
deriving Repr

/-- Recognizer for the done chunk, used to state the stream invariants. -/
def StreamChunk.isDone : StreamChunk → Bool
  | .done _ => true
  | _ => false

/-! ### Tool registry (src/tools/types.ts, class ToolRegistry)

The two Maps are embedded as association lists kept in insertion order;
Map.get is association-list lookup on the tool name. -/

/-- ToolRegistry state: the builtin store and the MCP store. -/
structure ToolRegistry where
  builtins : List (String × ToolDefinition) := []
  mcpTools : List (String × ToolDefinition) := []

/-- ToolRegistry.register: rejects a duplicate builtin name, otherwise
adds the tool to the builtin store. -/
def ToolRegistry.register (r : ToolRegistry) (t : ToolDefinition) :
    WnResult ToolRegistry :=
  if (r.builtins.lookup t.toolName).isSome then
    .err ("Builtin tool already registered: " ++ t.toolName)
  else
    .ok { r with builtins := r.builtins ++ [(t.toolName, t)] }

/-- ToolRegistry.registerMcp: rejects a duplicate MCP name, otherwise adds
the tool to the MCP store. -/
def ToolRegistry.registerMcp (r : ToolRegistry) (t : ToolDefinition) :
    WnResult ToolRegistry :=
  if (r.mcpTools.lookup t.toolName).isSome then
    .err ("MCP tool already registered: " ++ t.toolName)
  else
    .ok { r with mcpTools := r.mcpTools ++ [(t.toolName, t)] }

/-- ToolRegistry.get: builtin store first, then the MCP store. -/
def ToolRegistry.get (r : ToolRegistry) (toolName : String) : Option ToolDefinition :=
  match r.builtins.lookup toolName with
  | some t => some t
  | none => r.mcpTools.lookup toolName

/-- ToolRegistry.list: merge of both stores with builtin entries
overriding MCP entries of the same name (Map insertion semantics: the MCP
entries first, then each builtin inserted, replacing on collision). -/
def ToolRegistry.listAll (r : ToolRegistry) : List ToolDefinition :=
  (r.builtins.foldl
    (fun merged entry =>
      if merged.any (fun e => e.1 = entry.1) then
        merged.map (fun e => if e.1 = entry.1 then entry else e)
      else merged ++ [entry])
    r.mcpTools).map (fun e => e.2)

/-! ### Provider message translation

Each adapter translates the canonical message list into its vendor wire
format.  The vendor payloads are heterogeneous JavaScript records and are
embedded as Json values, so that key order on the wire is preserved. -/

/-- JavaScript truthiness of an optional string (undefined and the empty
string are falsy). -/
def truthyStr : Option String → Bool
  | none => false
  | some s => s ≠ ""

/-- Claude adapter, separateSystemMessages: collects the system messages
into one newline-joined system parameter, and converts each non-system
message by the three cases of the source (tool result with toolCallId,
assistant with toolCalls, plain message). -/
def claudeSeparateSystemMessages (messages : List Message) :
    Option String × List Json :=
  let systemMessages := messages.filter (fun m => m.role = Role.system)
  let nonSystemMessages := (messages.filter (fun m => m.role ≠ Role.system)).map
    (fun m =>
      if m.role = Role.user ∧ m.toolCallId.isSome then
        Json.obj [("role", .str "user"),
          ("content", .arr [Json.obj [("type", .str "tool_result"),
            ("tool_use_id", .str (m.toolCallId.getD "")),
            ("content", .str m.content)]])]
      else if m.role = Role.assistant ∧ (m.toolCalls.getD []).length > 0 ∧
          m.toolCalls.isSome then
        let contentBlocks :=
          (if m.content.length > 0 then
            [Json.obj [("type", .str "text"), ("text", .str m.content)]]
          else []) ++
          (m.toolCalls.getD []).map (fun tc =>
            Json.obj [("type", .str "tool_use"), ("id", .str tc.id),
              ("name", .str tc.toolName), ("input", .obj tc.arguments)])
        Json.obj [("role", .str "assistant"), ("content", .arr contentBlocks)]
      else
        Json.obj [("role", .str m.role.toStr), ("content", .str m.content)])
  let sys :=
    if systemMessages.length > 0 then
      some (String.intercalate "\n" (systemMessages.map (fun m => m.content)))
    else none
  (sys, nonSystemMessages)

/-- OpenAI adapter, toOpenAIMessages: tool results become role tool with
tool_call_id, assistant messages carrying toolCalls re-encode every
argument mapping as a JSON string under tool_calls, and plain messages
keep their role. -/
def toOpenAIMessages (messages : List Message) : List Json :=
  messages.map (fun m =>
    if truthyStr m.toolCallId then
      Json.obj [("role", .str "tool"), ("content", .str m.content),
        ("tool_call_id", .str (m.toolCallId.getD ""))]
    else if m.role = Role.assistant ∧ m.toolCalls.isSome ∧
        (m.toolCalls.getD []).length > 0 then
      Json.obj [("role", .str "assistant"), ("content", .str m.content),
        ("tool_calls", .arr ((m.toolCalls.getD []).map (fun tc =>
          Json.obj [("id", .str tc.id), ("type", .str "function"),
            ("function", Json.obj [("name", .str tc.toolName),
              ("arguments", .str (Json.render (.obj tc.arguments)))])])))]
    else if m.role = Role.system then
      Json.obj [("role", .str "system"), ("content", .str m.content)]
    else if m.role = Role.assistant then
      Json.obj [("role", .str "assistant"), ("content", .str m.content)]
    else
      Json.obj [("role", .str "user"), ("content", .str m.content)])

/-- Ollama adapter, toOllamaMessages: tool results become role tool with
the textual content, assistant tool calls are sent as a tool_calls array
whose arguments are re-encoded as JSON strings, plain messages keep role
and content. -/
def toOllamaMessages (messages : List Message) : List Json :=
  messages.map (fun m =>
    if m.toolCallId.isSome then
      Json.obj [("role", .str "tool"), ("content", .str m.content)]
    else if m.toolCalls.isSome ∧ (m.toolCalls.getD []).length > 0 then
      Json.obj [("role", .str m.role.toStr), ("content", .str m.content),
        ("tool_calls", .arr ((m.toolCalls.getD []).map (fun tc =>
          Json.obj [("function", Json.obj [("name", .str tc.toolName),
            ("arguments", .str (Json.render (.obj tc.arguments)))])])))]
    else
      Json.obj [("role", .str m.role.toStr), ("content", .str m.content)])

/-- Modelled from the spec: the Gemini message translation.  The current
gemini.ts is absent from the sources (only its test is present); per the
translation table of the spec, a system-separated adapter emits a tool
result with the vendor tool-result role carrying name and content, an
assistant message carrying toolCalls as a content-block array of a text
block (when the text is non-empty) followed by one functionCall block per
call, renames assistant to model, and passes plain messages through. -/
def geminiContents (messages : List Message) : List Json :=
  (messages.filter (fun m => m.role ≠ Role.system)).map (fun m =>
    if m.role = Role.user ∧ m.toolCallId.isSome then
      Json.obj [("role", .str "function"),
        ("parts", .arr [Json.obj [("functionResponse",
          Json.obj [("name", .str (m.resultName.getD "")),
            ("response", Json.obj [("content", .str m.content)])])]])]
    else if m.role = Role.assistant ∧ (m.toolCalls.getD []).length > 0 then
      let parts :=
        (if m.content.length > 0 then
          [Json.obj [("text", .str m.content)]]
        else []) ++
        (m.toolCalls.getD []).map (fun tc =>
          Json.obj [("functionCall", Json.obj [("name", .str tc.toolName),
            ("args", .obj tc.arguments)])])
      Json.obj [("role", .str "model"), ("parts", .arr parts)]
    else
      Json.obj [("role", .str (if m.role = Role.assistant then "model" else m.role.toStr)),
        ("parts", .arr [Json.obj [("text", .str m.content)]])])

/-! ### Streaming reassembly

Each adapter turns its vendor event stream into the canonical StreamChunk
sequence.  The asynchronous generator is embedded as a function from the
list of vendor events to the list of emitted chunks; JSON.parse of the
accumulated argument fragments and crypto.randomUUID are passed in as
parameters (jsParse, genId). -/

/-- Insertion-ordered map set, modelling JavaScript Map.set. -/
def mapSet {β : Type} (m : List (Nat × β)) (k : Nat) (v : β) : List (Nat × β) :=
  if m.any (fun e => e.1 = k) then
    m.map (fun e => if e.1 = k then (k, v) else e)
  else m ++ [(k, v)]

/-- Map lookup, modelling JavaScript Map.get. -/
def mapGet {β : Type} (m : List (Nat × β)) (k : Nat) : Option β :=
  (m.find? (fun e => e.1 = k)).map (fun e => e.2)

/-- Map deletion, modelling JavaScript Map.delete. -/
def mapDelete {β : Type} (m : List (Nat × β)) (k : Nat) : List (Nat × β) :=
  m.filter (fun e => e.1 ≠ k)

/-- Claude stream event content_block_start. -/
structure ClaudeBlockStart where
  index : Nat
  blockType : String
  blockId : Option String := none
  blockName : Option String := none
deriving Repr

/-- Claude stream event content_block_delta. -/
structure ClaudeBlockDelta where
  index : Nat
  deltaType : String
  text : Option String := none
  inputJsonDelta : Option String := none
deriving Repr

/-- Claude (Anthropic) stream events; otherEvent covers the ignored event
types such as message_start and message_delta. -/
inductive ClaudeEvent where
  | blockStart (e : ClaudeBlockStart)
  | blockDelta (e : ClaudeBlockDelta)
  | blockStop (index : Nat)
  | messageStop
  | otherEvent (t : String)
deriving Repr

/-- Per-index tool_use block accumulator of the Claude stream loop. -/
structure ClaudeToolBlock where
  blockId : String
  blockName : String
  inputJson : String
deriving Repr

/-- Claude stream loop: text deltas pass through, tool_use argument
fragments accumulate per block index and are parsed (empty object on
parse failure) when the block stops, message_stop emits done with the
usage of the final message (passed as finalUsage). -/
def claudeStreamGo (jsParse : String → Option (List (String × Json)))
    (finalUsage : TokenUsage) (blocks : List (Nat × ClaudeToolBlock)) :
    List ClaudeEvent → List StreamChunk
  | [] => []
  | ClaudeEvent.blockStart s :: rest =>
      if s.blockType = "tool_use" then
        claudeStreamGo jsParse finalUsage
          (mapSet blocks s.index
            ⟨s.blockId.getD "", s.blockName.getD "", ""⟩) rest
      else claudeStreamGo jsParse finalUsage blocks rest
  | ClaudeEvent.blockDelta d :: rest =>
      if d.deltaType = "text_delta" ∧ d.text.isSome then
        StreamChunk.delta (d.text.getD "") ::
          claudeStreamGo jsParse finalUsage blocks rest
      else if d.deltaType = "input_json_delta" ∧ d.inputJsonDelta.isSome then
        match mapGet blocks d.index with
        | some b =>
            claudeStreamGo jsParse finalUsage
              (mapSet blocks d.index
                { b with inputJson := b.inputJson ++ d.inputJsonDelta.getD "" }) rest
        | none => claudeStreamGo jsParse finalUsage blocks rest
      else claudeStreamGo jsParse finalUsage blocks rest
  | ClaudeEvent.blockStop idx :: rest =>
      match mapGet blocks idx with
      | some b =>
          StreamChunk.toolCall
            ⟨b.blockId, b.blockName, (jsParse b.inputJson).getD []⟩ ::
            claudeStreamGo jsParse finalUsage (mapDelete blocks idx) rest
      | none => claudeStreamGo jsParse finalUsage blocks rest
  | ClaudeEvent.messageStop :: rest =>
      StreamChunk.done (some finalUsage) ::
        claudeStreamGo jsParse finalUsage blocks rest
  | ClaudeEvent.otherEvent _ :: rest =>
      claudeStreamGo jsParse finalUsage blocks rest

/-- Claude stream entry point (empty accumulator map). -/
def claudeStream (jsParse : String → Option (List (String × Json)))
    (finalUsage : TokenUsage) (events : List ClaudeEvent) : List StreamChunk :=
  claudeStreamGo jsParse finalUsage [] events

/-- OpenAI streamed tool-call fragment (index plus optional id, name and
argument fragment). -/
structure OADeltaToolCall where
  index : Nat
  tcId : Option String := none
  fnName : Option String := none
  fnArguments : Option String := none
deriving Repr

/-- OpenAI stream choice: content delta, tool-call fragments, and the
finish reason. -/
structure OAChoice where
  deltaContent : Option String := none
  deltaToolCalls : Option (List OADeltaToolCall) := none
  finishReason : Option String := none
deriving Repr

/-- OpenAI vendor usage record. -/
structure OAUsage where
  promptTokens : Int
  completionTokens : Int
deriving Repr

/-- OpenAI stream chunk: choices array plus optional usage. -/
structure OAChunk where
  choices : List OAChoice
  usage : Option OAUsage := none
deriving Repr

/-- OpenAI usage mapping toTokenUsage. -/
def toTokenUsage : Option OAUsage → Option TokenUsage
  | none => none
  | some u => some ⟨u.promptTokens, u.completionTokens⟩

/-- OpenAI streaming tool-call accumulator. -/
structure OAAcc where
  accId : String
  accName : String
  accArguments : String
deriving Repr

/-- Accumulate one tool-call fragment into the accumulator map (create on
first sight of an index, then append the argument fragment). -/
def oaAccumulate (accs : List (Nat × OAAcc)) (tc : OADeltaToolCall) :
    List (Nat × OAAcc) :=
  let acc := match mapGet accs tc.index with
    | some a => a
    | none => ⟨tc.tcId.getD "", tc.fnName.getD "", ""⟩
  let acc2 :=
    if truthyStr tc.fnArguments then
      { acc with accArguments := acc.accArguments ++ tc.fnArguments.getD "" }
    else acc
  mapSet accs tc.index acc2

/-- Per-chunk choice processing of the OpenAI stream: text delta of the
first choice, accumulation of tool-call fragments, and the flush of the
accumulators when the finish reason is stop or tool_calls. -/
def oaChoiceStep (jsParse : String → Option (List (String × Json)))
    (accs : List (Nat × OAAcc)) (choices : List OAChoice) :
    List StreamChunk × List (Nat × OAAcc) :=
  match choices.head? with
  | none => ([], accs)
  | some choice =>
      let textOut :=
        if truthyStr choice.deltaContent then
          [StreamChunk.delta (choice.deltaContent.getD "")]
        else []
      let accs3 := (choice.deltaToolCalls.getD []).foldl oaAccumulate accs
      if choice.finishReason = some "stop" ∨ choice.finishReason = some "tool_calls" then
        (textOut ++ accs3.map (fun e =>
          StreamChunk.toolCall
            ⟨e.2.accId, e.2.accName, (jsParse e.2.accArguments).getD []⟩), [])
      else (textOut, accs3)

/-- Process one OpenAI stream chunk: emitted chunks, updated accumulator
map, and whether this chunk carried usage (and hence emitted done). -/
def processOAChunk (jsParse : String → Option (List (String × Json)))
    (accs : List (Nat × OAAcc)) (c : OAChunk) :
    List StreamChunk × List (Nat × OAAcc) × Bool :=
  let co := oaChoiceStep jsParse accs c.choices
  match c.usage with
  | some u => (co.1 ++ [StreamChunk.done (toTokenUsage (some u))], co.2, true)
  | none => (co.1, co.2, false)

/-- OpenAI stream loop with the doneEmitted flag; when the vendor stream
ends without a usage chunk, a final done chunk is appended. -/
def openaiStreamGo (jsParse : String → Option (List (String × Json)))
    (accs : List (Nat × OAAcc)) (doneEmitted : Bool) :
    List OAChunk → List StreamChunk
  | [] => if doneEmitted then [] else [StreamChunk.done none]
  | c :: rest =>
      let out := processOAChunk jsParse accs c
      out.1 ++ openaiStreamGo jsParse out.2.1 (doneEmitted || out.2.2) rest

/-- OpenAI stream entry point. -/
def openaiStream (jsParse : String → Option (List (String × Json)))
    (chunks : List OAChunk) : List StreamChunk :=
  openaiStreamGo jsParse [] false chunks

/-- Ollama streamed tool call (function name and decoded arguments). -/
structure OllamaToolCallIn where
  fnName : String
  fnArguments : List (String × Json)
deriving Repr

/-- Ollama stream chunk message part. -/
structure OllamaMsgIn where
  content : Option String := none
  toolCalls : Option (List OllamaToolCallIn) := none
deriving Repr

/-- Ollama NDJSON stream chunk. -/
structure OllamaChunkIn where
  message : Option OllamaMsgIn := none
  isLast : Bool
  promptEvalCount : Option Int := none
  evalCount : Option Int := none
deriving Repr

/-- Ollama usage conversion convertUsage: none when neither counter is
reported, otherwise both with zero defaults. -/
def ollamaConvertUsage (promptEvalCount evalCount : Option Int) : Option TokenUsage :=
  if promptEvalCount = none ∧ evalCount = none then none
  else some ⟨promptEvalCount.getD 0, evalCount.getD 0⟩

/-- Number of tool calls carried by one Ollama chunk (the amount by which
the fresh-id counter advances). -/
def ollamaTcsLen (c : OllamaChunkIn) : Nat :=
  ((c.message.bind (fun m => m.toolCalls)).getD []).length

/-- Emissions of one Ollama chunk before the done check: its tool calls
with fresh ids, or — on a non-final chunk without tool calls — its text
content as a delta. -/
def ollamaEmit (genId : Nat → String) (counter : Nat) (c : OllamaChunkIn) :
    List StreamChunk :=
  let tcs := (c.message.bind (fun m => m.toolCalls)).getD []
  if tcs.length > 0 then
    tcs.enum.map (fun e =>
      StreamChunk.toolCall ⟨genId (counter + e.1), e.2.fnName, e.2.fnArguments⟩)
  else if truthyStr (c.message.bind (fun m => m.content)) ∧ ¬ c.isLast then
    [StreamChunk.delta ((c.message.bind (fun m => m.content)).getD "")]
  else []

/-- Ollama stream loop: tool-call chunks get fresh ids from genId (the
embedded crypto.randomUUID, indexed by a running counter), text deltas
pass through on non-final chunks, and every chunk whose done flag is set
emits a done chunk. -/
def ollamaStreamGo (genId : Nat → String) (counter : Nat) :
    List OllamaChunkIn → List StreamChunk
  | [] => []
  | c :: rest =>
      ollamaEmit genId counter c ++
      (if c.isLast then
        [StreamChunk.done (ollamaConvertUsage c.promptEvalCount c.evalCount)]
      else []) ++
      ollamaStreamGo genId (counter + ollamaTcsLen c) rest

/-- Ollama stream entry point. -/
def ollamaStream (genId : Nat → String) (chunks : List OllamaChunkIn) :
    List StreamChunk :=
  ollamaStreamGo genId 0 chunks

/-- Gemini response part: optional text and optional functionCall. -/
structure GeminiPart where
  text : Option String := none
  functionCall : Option (String × List (String × Json)) := none
deriving Repr

/-- Gemini usage metadata. -/
structure GeminiUsageMeta where
  promptTokenCount : Option Int := none
  candidatesTokenCount : Option Int := none
deriving Repr

/-- Gemini usage conversion convertUsage. -/
def geminiConvertUsage : Option GeminiUsageMeta → Option TokenUsage
  | none => none
  | some m => some ⟨m.promptTokenCount.getD 0, m.candidatesTokenCount.getD 0⟩

/-- Gemini per-chunk part processing: text parts become deltas and
functionCall parts become tool calls with fresh ids. -/
def geminiParts (genId : Nat → String) (counter : Nat) :
    List GeminiPart → List StreamChunk × Nat
  | [] => ([], counter)
  | p :: rest =>
      let textOut := if truthyStr p.text then [StreamChunk.delta (p.text.getD "")] else []
      match p.functionCall with
      | some fc =>
          let out := geminiParts genId (counter + 1) rest
          (textOut ++ [StreamChunk.toolCall ⟨genId counter, fc.1, fc.2⟩] ++ out.1, out.2)
      | none =>
          let out := geminiParts genId counter rest
          (textOut ++ out.1, out.2)

/-- Gemini stream loop over the chunk list (each chunk contributes the
parts of its first candidate; a chunk without candidates contributes
nothing). -/
def geminiStreamGo (genId : Nat → String) (counter : Nat) :
    List (List GeminiPart) → List StreamChunk
  | [] => []
  | parts :: rest =>
      let out := geminiParts genId counter parts
      out.1 ++ geminiStreamGo genId out.2 rest

/-- Gemini stream entry point: after the vendor stream ends, one done
chunk with the usage of the final response is emitted unconditionally. -/
def geminiStream (genId : Nat → String) (finalMeta : Option GeminiUsageMeta)
    (chunks : List (List GeminiPart)) : List StreamChunk :=
  geminiStreamGo genId 0 chunks ++ [StreamChunk.done (geminiConvertUsage finalMeta)]

/-! ### Agent Loop (src/agent/agent-loop.ts, class AgentLoop)

The handler callbacks are embedded as a trace: every notification the
loop would deliver is appended to an event list, in call order.  The
provider is a function from the message history and the advertised tool
list to a complete-round result.  The AbortSignal is a boolean: the
claims about cancellation concern a signal triggered between turns, and
the loop polls the same unchanging flag at each of its check points. -/

/-- AgentLoop state values. -/
inductive LoopState where
  | idle
  | waitingInput
  | thinking
  | toolRunning
deriving Repr, DecidableEq

/-- Handler notifications, recorded in the order the loop delivers them. -/
inductive LoopEvent where
  | stateChange (s : LoopState)
  | response (content : String)
  | toolStart (toolName : String) (args : List (String × Json))
  | toolEnd (toolName : String) (result : ToolResult)
  | errorEvent (msg : String)
  | usageEvent (u : TokenUsage)
deriving Repr

/-- Recognizer for the onError notification. -/
def LoopEvent.isError : LoopEvent → Bool
  | .errorEvent _ => true
  | _ => false

/-- Loop configuration: provider, tool registry, finite maxToolRounds
(the Infinity default of the source is not representable as a Nat; every
claim under verification constructs the loop with a finite bound), and
the polled cancellation flag. -/
structure LoopConfig where
  provider : List Message → List Tool → WnResult LLMResponse
  tools : ToolRegistry
  maxToolRounds : Nat
  signalAborted : Bool

/-- Outcome of one step call: the returned result, the message log, the
delivered notifications, and the final state field. -/
structure StepOutcome where
  result : WnResult String
  messages : List Message
  events : List LoopEvent
  state : LoopState
deriving Repr

/-- Advertised tool list built from the registry (ToolDefinition to Tool
projection of step). -/
def llmToolsOf (tools : ToolRegistry) : List Tool :=
  tools.listAll.map (fun td => ⟨td.toolName, td.description, td.parameters⟩)

/-- Tool dispatch loop of step: for each tool call in order, poll the
signal, then either synthesize a Tool-not-found result message for an
unregistered tool, or run the tool, record the result message, and notify
toolStart / toolEnd around it.  The boolean of the outcome reports an
abort. -/
def runToolCalls (cfg : LoopConfig) :
    List ToolCall → List Message → List LoopEvent →
    List Message × List LoopEvent × Bool
  | [], msgs, evs => (msgs, evs, false)
  | tc :: rest, msgs, evs =>
      if cfg.signalAborted then (msgs, evs, true)
      else
        match cfg.tools.get tc.toolName with
        | none =>
            runToolCalls cfg rest
              (msgs ++ [{ role := .user,
                          content := "Tool not found: " ++ tc.toolName,
                          toolCallId := some tc.id,
                          resultName := some tc.toolName }]) evs
        | some tool =>
            let r := tool.execute tc.arguments
            runToolCalls cfg rest
              (msgs ++ [{ role := .user, content := r.output,
                          toolCallId := some tc.id,
                          resultName := some tc.toolName }])
              (evs ++ [.stateChange .toolRunning,
                .toolStart tc.toolName tc.arguments, .toolEnd tc.toolName r])

/-- Round loop of step; remaining is the number of rounds the while
condition toolRound < maxToolRounds still admits. -/
def stepRounds (cfg : LoopConfig) :
    Nat → List Message → List LoopEvent → LoopState → StepOutcome
  | 0, msgs, evs, st =>
      let msg := "Max tool rounds (" ++ toString cfg.maxToolRounds ++ ") reached"
      ⟨.err msg, msgs, evs ++ [.errorEvent msg], st⟩
  | r + 1, msgs, evs, st =>
      if cfg.signalAborted then ⟨.err "Aborted", msgs, evs, st⟩
      else
        let evs := evs ++ [LoopEvent.stateChange .thinking]
        match cfg.provider msgs (llmToolsOf cfg.tools) with
        | .err e => ⟨.err e, msgs, evs ++ [.errorEvent e], .thinking⟩
        | .ok resp =>
            let evs := evs ++ (match resp.usage with
              | some u => [LoopEvent.usageEvent u]
              | none => [])
            if (resp.toolCalls.getD []).length = 0 then
              ⟨.ok resp.content,
                msgs ++ [{ role := .assistant, content := resp.content }],
                evs ++ [.response resp.content, .stateChange .idle], .idle⟩
            else
              let calls := resp.toolCalls.getD []
              let msgs := msgs ++ [{ role := .assistant, content := resp.content,
                                     toolCalls := some calls }]
              let evs := evs ++
                (if resp.content ≠ "" then [LoopEvent.response resp.content] else [])
              let out := runToolCalls cfg calls msgs evs
              if out.2.2 then ⟨.err "Aborted", out.1, out.2.1, .thinking⟩
              else stepRounds cfg r out.1 out.2.1 .thinking

/-- AgentLoop.step: poll the signal (returning before the user message is
appended), append the user message, then run the round loop from the full
maxToolRounds budget.  st0 is the state field the loop holds on entry. -/
def step (cfg : LoopConfig) (st0 : LoopState) (msgs : List Message)
    (input : String) : StepOutcome :=
  if cfg.signalAborted then ⟨.err "Aborted", msgs, [], st0⟩
  else
    stepRounds cfg cfg.maxToolRounds
      (msgs ++ [{ role := .user, content := input }]) [] st0

/-! ### JSON-RPC protocol (src/rpc/protocol.ts) -/

/-- Type guard isNonNullObject: a non-null object that is not an array. -/
def isNonNullObject : Json → Bool
  | .obj _ => true
  | _ => false

/-- Type guard isValidId: a string or a number. -/
def isValidId : Option Json → Bool
  | some (.str _) => true
  | some (.num _) => true
  | _ => false

/-- Check of the jsonrpc field against the literal 2.0. -/
def hasJsonRpcTag (msg : Json) : Bool :=
  match msg.lookup "jsonrpc" with
  | some (.str s) => s = "2.0"
  | _ => false

/-- Check that the method field is a string. -/
def hasStringMethod (msg : Json) : Bool :=
  match msg.lookup "method" with
  | some (.str _) => true
  | _ => false

/-- Type guard isJsonRpcRequest. -/
def isJsonRpcRequest (msg : Json) : Bool :=
  isNonNullObject msg && hasJsonRpcTag msg && hasStringMethod msg &&
  isValidId (msg.lookup "id")

/-- Type guard isJsonRpcNotification. -/
def isJsonRpcNotification (msg : Json) : Bool :=
  isNonNullObject msg && hasJsonRpcTag msg && hasStringMethod msg &&
  ! msg.hasKey "id"

/-- Type guard isJsonRpcIncoming: request or notification. -/
def isJsonRpcIncoming (msg : Json) : Bool :=
  isJsonRpcRequest msg || isJsonRpcNotification msg

/-- Method string of a validated incoming message. -/
def rpcMethod (msg : Json) : String :=
  match msg.lookup "method" with
  | some (.str s) => s
  | _ => ""

/-- Params of an incoming message (none models an absent property). -/
def rpcParams (msg : Json) : Option Json :=
  msg.lookup "params"

/-- Id of a request (the guard guarantees a string or number value). -/
def rpcId (msg : Json) : Json :=
  (msg.lookup "id").getD .null

/-- One line of transport input, modelled at the JSON.parse boundary:
parsed v stands for a line that JSON.parse decodes to v, unparsable for a
line on which JSON.parse throws (the separate empty-line rejection of
decodeJsonRpc is subsumed by unparsable). -/
inductive RawLine where
  | parsed (v : Json)
  | unparsable

/-- decodeJsonRpc: reject an unparsable line, then validate the parsed
value as an incoming request or notification. -/
def decodeJsonRpc : RawLine → WnResult Json
  | .unparsable => .err "Failed to parse JSON-RPC: invalid JSON"
  | .parsed v =>
      if isJsonRpcIncoming v then .ok v
      else .err "Invalid JSON-RPC message: not a valid request or notification"

/-- encodeNotification as the object it stringifies. -/
def encodeNotificationJson (method : String) (params : Option Json) : Json :=
  match params with
  | none => .obj [("jsonrpc", .str "2.0"), ("method", .str method)]
  | some p => .obj [("jsonrpc", .str "2.0"), ("method", .str method), ("params", p)]

/-- encodeNotification: the written line. -/
def encodeNotification (method : String) (params : Option Json) : String :=
  (encodeNotificationJson method params).render

/-- encodeSuccessResponse: the written line. -/
def encodeSuccessResponse (id : Json) (result : Json) : String :=
  (Json.obj [("jsonrpc", .str "2.0"), ("id", id), ("result", result)]).render

/-- encodeErrorResponse without the optional data field. -/
def encodeErrorResponse (id : Json) (code : Int) (message : String) : String :=
  (Json.obj [("jsonrpc", .str "2.0"), ("id", id),
    ("error", Json.obj [("code", .num code), ("message", .str message)])]).render

/-- encodeParseError: code -32700 with a null id. -/
def encodeParseError : String :=
  encodeErrorResponse .null (-32700) "Parse error"

/-- encodeMethodNotFound: code -32601 carrying the method name. -/
def encodeMethodNotFound (id : Json) (method : String) : String :=
  encodeErrorResponse id (-32601) ("Method not found: " ++ method)

/-- encodeInternalError: code -32603 with the diagnostic message. -/
def encodeInternalError (id : Json) (message : String) : String :=
  encodeErrorResponse id (-32603) message

/-! ### JSON-RPC server (src/rpc/server.ts, createRpcServer) -/

/-- Outcome of awaiting the request handler: a resolved result, a thrown
MethodNotFoundError carrying the method name, or any other thrown error
carrying its message. -/
inductive DispatchOutcome where
  | ok (result : Json)
  | methodNotFoundThrown (method : String)
  | thrown (message : String)

/-- The request handler signature (method, params) to outcome. -/
def RpcHandler : Type := String → Option Json → DispatchOutcome

/-- createRpcRequestHandler: look the method up in the map and run it;
an unregistered method throws MethodNotFoundError. -/
def createRpcRequestHandler
    (methods : List (String × (Option Json → DispatchOutcome))) : RpcHandler :=
  fun method params =>
    match methods.lookup method with
    | none => .methodNotFoundThrown method
    | some fn => fn params

/-- Server state: the stopped flag of the createRpcServer closure. -/
structure ServerState where
  stopped : Bool
deriving Repr, DecidableEq

/-- Lines written for one input line: a parse error reply, a request
response (success, method-not-found, or internal error), or — for a
notification whose handler threw — a log-level-warn notification; a
successful notification dispatch writes nothing. -/
def processLine (handler : RpcHandler) (line : RawLine) : List String :=
  match decodeJsonRpc line with
  | .err _ => [encodeParseError]
  | .ok msg =>
      if isJsonRpcRequest msg then
        match handler (rpcMethod msg) (rpcParams msg) with
        | .ok result => [encodeSuccessResponse (rpcId msg) result]
        | .methodNotFoundThrown m => [encodeMethodNotFound (rpcId msg) m]
        | .thrown e => [encodeInternalError (rpcId msg) e]
      else
        match handler (rpcMethod msg) (rpcParams msg) with
        | .thrown e =>
            [encodeNotification "log"
              (some (Json.obj [("level", .str "warn"), ("message", .str e)]))]
        | .methodNotFoundThrown m =>
            [encodeNotification "log"
              (some (Json.obj [("level", .str "warn"),
                ("message", .str ("Method not found: " ++ m))]))]
        | .ok _ => []

/-- Read loop of start: the stoppable input yields done as soon as the
stopped flag is set, otherwise every line is processed and its output
written, and the loop continues regardless of handler errors. -/
def serverLoop (handler : RpcHandler) (st : ServerState) :
    List RawLine → ServerState × List String
  | [] => (st, [])
  | line :: rest =>
      if st.stopped then (st, [])
      else
        let outs := processLine handler line
        let next := serverLoop handler st rest
        (next.1, outs ++ next.2)

/-- start: the stopped flag is reset on entry (enabling restart after
stop), then the read loop runs over the input lines. -/
def startServer (handler : RpcHandler) (st : ServerState)
    (lines : List RawLine) : ServerState × List String :=
  serverLoop handler { st with stopped := false } lines

/-- stop: set the stopped flag (the pending next() resolution is part of
the loop model above). -/
def stopServer (st : ServerState) : ServerState :=
  { st with stopped := true }

/-! ### MCP manager (src/mcp/client.ts, createMcpManager.connectAll)

The per-server connection attempt performs subprocess I/O; its outcome is
passed in as a function to a Promise.allSettled entry: a fulfilled result
of connectServer (which itself returns ok or err), or a rejection. -/

/-- Configured MCP server. -/
structure McpServerConfig where
  serverName : String
  command : String
  args : List String
deriving Repr

/-- Live connection as far as connectAll observes it: the server name and
its wrapped tools. -/
structure McpConnection where
  serverName : String
  tools : List ToolDefinition

/-- Promise.allSettled entry for one connectServer call. -/
inductive SettledOutcome where
  | fulfilled (r : WnResult McpConnection)
  | rejected (reason : String)

/-- connectAll result payload. -/
structure ConnectAllResult where
  connections : List McpConnection
  warnings : List String

/-- Partition of the settled results: fulfilled-ok contributes its
connection, fulfilled-err and rejections contribute their diagnostic, in
arrival order. -/
def collectSettled (results : List SettledOutcome) :
    List McpConnection × List String :=
  results.foldl
    (fun acc r =>
      match r with
      | .fulfilled (.ok c) => (acc.1 ++ [c], acc.2)
      | .fulfilled (.err e) => (acc.1, acc.2 ++ [e])
      | .rejected m => (acc.1, acc.2 ++ [m]))
    ([], [])

/-- connectAll: an empty server list succeeds with nothing; otherwise
every server is attempted, failures accumulate as warnings, and only the
all-failed case returns err with the joined diagnostics. -/
def connectAll (servers : List McpServerConfig)
    (attempt : McpServerConfig → SettledOutcome) : WnResult ConnectAllResult :=
  if servers.length = 0 then .ok ⟨[], []⟩
  else
    let parts := collectSettled (servers.map attempt)
    if parts.1.length = 0 ∧ parts.2.length > 0 then
      .err ("All MCP servers failed to connect: " ++
        String.intercalate "; " parts.2)
    else .ok ⟨parts.1, parts.2⟩

/-! ### Sub-agent runner (src/agent/sub-agent-runner.ts, WorkerSubAgentRunner) -/

/-- Sub-agent status values. -/
inductive SubAgentStatus where
  | running
  | completed
  | failed
deriving Repr, DecidableEq

/-- Mutable handle of a spawned sub-agent; hasWorker records whether a
worker was started for it (spawn stores the Worker on the handle only
when name resolution succeeded). -/
structure MutableHandle where
  id : String
  status : SubAgentStatus
  result : Option String := none
  hasWorker : Bool := false
deriving Repr, DecidableEq

/-- WorkerSubAgentRunner.stop: a missing handle or a handle without a
worker is a no-op; otherwise the worker is terminated and the status is
set to failed, whatever it was before. -/
def runnerStop (handles : List (String × MutableHandle)) (id : String) :
    List (String × MutableHandle) :=
  match handles.lookup id with
  | none => handles
  | some h =>
      if ¬ h.hasWorker then handles
      else handles.map (fun e =>
        if e.1 = id then (e.1, { h with status := .failed }) else e)

/-! ### CLI provider construction (src/cli.ts, createProvider) -/

/-- Provider configuration entry of the loaded config. -/
structure ProviderConfig where
  apiKey : Option String := none
  baseUrl : Option String := none
deriving Repr, DecidableEq

/-- Constructed provider as the serve layer distinguishes it: which
factory made it, for which model, from which configuration. -/
structure ProviderHandle where
  providerName : String
  model : String
  config : ProviderConfig
deriving Repr, DecidableEq

/-- createClaudeProvider: fails fast without an apiKey. -/
def createClaudeProvider (config : ProviderConfig) (model : String) :
    WnResult ProviderHandle :=
  if ¬ truthyStr config.apiKey then .err "Claude provider requires an API key"
  else .ok ⟨"claude", model, config⟩

/-- createOpenAIProvider: fails fast without an apiKey. -/
def createOpenAIProvider (config : ProviderConfig) (model : String) :
    WnResult ProviderHandle :=
  if ¬ truthyStr config.apiKey then .err "OpenAI provider requires an API key"
  else .ok ⟨"openai", model, config⟩

/-- createOllamaProvider: no credentials required. -/
def createOllamaProvider (config : ProviderConfig) (model : String) :
    WnResult ProviderHandle :=
  .ok ⟨"ollama", model, config⟩

/-- createGeminiProvider: fails fast without an apiKey. -/
def createGeminiProvider (config : ProviderConfig) (model : String) :
    WnResult ProviderHandle :=
  if ¬ truthyStr config.apiKey then .err "Gemini provider requires an API key"
  else .ok ⟨"gemini", model, config⟩

/-- createProvider: dispatch on the provider name, unknown names fail. -/
def createProvider (providerName : String) (config : ProviderConfig)
    (model : String) : WnResult ProviderHandle :=
  match providerName with
  | "claude" => createClaudeProvider config model
  | "openai" => createOpenAIProvider config model
  | "ollama" => createOllamaProvider config model
  | "gemini" => createGeminiProvider config model
  | _ => .err ("Unknown provider: " ++ providerName)

/-! ### Serve session: input and abort (src/cli.ts, serve)

The serve closure owns one AbortController whose signal is handed to the
Agent Loop; the abort RPC method triggers it and nothing ever resets it.
The session state bundles that flag with the loop-owned message log and
state field. -/

/-- Serve-level session state. -/
structure ServeSession where
  aborted : Bool
  loopState : LoopState
  messages : List Message

/-- The abort RPC handler: abortController.abort() then aborted true. -/
def rpcAbort (s : ServeSession) : ServeSession × Json :=
  ({ s with aborted := true }, Json.obj [("aborted", .bool true)])

/-- The input RPC handler: run loop.step on the text and answer with
accepted = result.ok. -/
def rpcInput (provider : List Message → List Tool → WnResult LLMResponse)
    (tools : ToolRegistry) (maxToolRounds : Nat) (s : ServeSession)
    (text : String) : ServeSession × Json :=
  let out := step ⟨provider, tools, maxToolRounds, s.aborted⟩ s.loopState s.messages text
  ({ s with messages := out.messages, loopState := out.state },
    Json.obj [("accepted", .bool out.result.isOk)])

/-! ### configUpdate (spec-modelled)

Modelled from the spec: the configUpdate RPC handler that rebuilds the
provider and swaps the Agent Loop is absent from the given sources (only
its test suite is present; the cli.ts provided carries an earlier stub).
Following the spec: on params carrying changed fields the handler
resolves the provider name and model against the defaults, rebuilds the
provider, and on success swaps the Agent Loop in place answering
applied true; a failed provider construction answers applied false and
keeps the previous loop; empty params leave the loop untouched. -/

/-- Root configuration slice consumed by configUpdate. -/
structure WnConfigLite where
  defaultProvider : String
  defaultModel : String
  providers : List (String × ProviderConfig)
deriving Repr, DecidableEq

/-- configUpdate request params. -/
structure ConfigUpdateParams where
  persona : Option String := none
  provider : Option String := none
  model : Option String := none
deriving Repr, DecidableEq

/-- Serve state as configUpdate observes it: the root configuration and
the provider inside the current Agent Loop. -/
structure ServeConfigState where
  config : WnConfigLite
  loopProvider : ProviderHandle
deriving Repr, DecidableEq

/-- Modelled from the spec: the configUpdate handler.  Returns the new
serve state and the applied flag of the RPC result. -/
def configUpdate (st : ServeConfigState) (params : ConfigUpdateParams) :
    ServeConfigState × Bool :=
  if params.persona = none ∧ params.provider = none ∧ params.model = none then
    (st, true)
  else
    let providerName := params.provider.getD st.config.defaultProvider
    let model := params.model.getD st.config.defaultModel
    let providerConfig := (st.config.providers.lookup providerName).getD {}
    match createProvider providerName providerConfig model with
    | .err _ => (st, false)
    | .ok p => ({ st with loopProvider := p }, true)

/-! ## Theorems -/

/-- The tool-call round-trip history of the provider translation claims:
an assistant message carrying one tool call, then the tool result fed
back as a user message bound to the call id. -/
def toolHistory : List Message :=
  [{ role := .assistant, content := "",
     toolCalls := some [⟨"X", "f", [("k", Json.num 1)]⟩] },
   { role := .user, content := "OK", toolCallId := some "X",
     resultName := some "f" }]

/-- Claim C2: for every one of the four provider adapters, translating a
history of an assistant message with toolCalls [(id X, name f, args
(k : 1))] followed by a user message with toolCallId X, name f, content
OK yields the two messages in the vendor representation — tool-use block
plus tool-result block for claude, assistant tool_calls plus a tool-role
message for openai and ollama, functionCall plus functionResponse parts
for gemini — so the tool information is not dropped. -/
theorem adapters_preserve_tool_roundtrip :
    claudeSeparateSystemMessages toolHistory =
      (none,
       [Json.obj [("role", .str "assistant"),
          ("content", .arr [Json.obj [("type", .str "tool_use"),
            ("id", .str "X"), ("name", .str "f"),
            ("input", .obj [("k", .num 1)])]])],
        Json.obj [("role", .str "user"),
          ("content", .arr [Json.obj [("type", .str "tool_result"),
            ("tool_use_id", .str "X"), ("content", .str "OK")]])]]) ∧
    toOpenAIMessages toolHistory =
      [Json.obj [("role", .str "assistant"), ("content", .str ""),
         ("tool_calls", .arr [Json.obj [("id", .str "X"),
           ("type", .str "function"),
           ("function", Json.obj [("name", .str "f"),
             ("arguments", .str "\x7b\"k\":1\x7d")])]])],
       Json.obj [("role", .str "tool"), ("content", .str "OK"),
         ("tool_call_id", .str "X")]] ∧
    toOllamaMessages toolHistory =
      [Json.obj [("role", .str "assistant"), ("content", .str ""),
         ("tool_calls", .arr [Json.obj [("function",
           Json.obj [("name", .str "f"),
             ("arguments", .str "\x7b\"k\":1\x7d")])]])],
       Json.obj [("role", .str "tool"), ("content", .str "OK")]] ∧
    geminiContents toolHistory =
      [Json.obj [("role", .str "model"),
         ("parts", .arr [Json.obj [("functionCall",
           Json.obj [("name", .str "f"),
             ("args", .obj [("k", .num 1)])])]])],
       Json.obj [("role", .str "function"),
         ("parts", .arr [Json.obj [("functionResponse",
           Json.obj [("name", .str "f"),
             ("response", Json.obj [("content", .str "OK")])])]])]] := by
  refine ⟨?_, ?_, ?_, ?_⟩ <;> rfl

/-- A provider used for the cancellation scenario: it would answer with
plain text hello on any history. -/
def helloProvider : List Message → List Tool → WnResult LLMResponse :=
  fun _ _ => .ok { content := "hello" }

/-- The initial serve session of the cancellation scenario. -/
def freshSession : ServeSession := ⟨false, .idle, []⟩

/-- Claim C3 counterexample: after abort has triggered the signal, the
next input request does not proceed normally — it is refused with
accepted false and the log is not extended, whereas the same request on
the untriggered session is accepted.  The claim that a subsequent step
proceeds normally is therefore false on this code. -/
theorem abort_poisons_next_step_counterexample :
    (rpcInput helloProvider {} 10 (rpcAbort freshSession).1 "hi").2 =
      Json.obj [("accepted", .bool false)] ∧
    (rpcInput helloProvider {} 10 (rpcAbort freshSession).1 "hi").1.messages = [] ∧
    (rpcInput helloProvider {} 10 freshSession "hi").2 =
      Json.obj [("accepted", .bool true)] := by
  refine ⟨?_, ?_, ?_⟩ <;> rfl

/-- Claim C3 (amended): the cancellation signal is one-shot and is never
reset, so once abort has triggered it every subsequent step returns
err Aborted immediately — the provider result is irrelevant — while the
message log of the earlier turns is preserved unchanged. -/
theorem aborted_signal_never_resets
    (provider : List Message → List Tool → WnResult LLMResponse)
    (tools : ToolRegistry) (maxToolRounds : Nat) (s : ServeSession)
    (text : String) (h : s.aborted = true) :
    (rpcInput provider tools maxToolRounds s text).2 =
      Json.obj [("accepted", .bool false)] ∧
    (rpcInput provider tools maxToolRounds s text).1.messages = s.messages ∧
    (step ⟨provider, tools, maxToolRounds, s.aborted⟩ s.loopState s.messages
      text).result = .err "Aborted" := by
  refine ⟨?_, ?_, ?_⟩ <;> simp [rpcInput, step, h, WnResult.isOk]

/-- Claim C3 witness: the amended theorem applied to a concrete aborted
session. -/
theorem aborted_signal_never_resets_witness :
    (rpcInput helloProvider {} 10 ⟨true, .idle, []⟩ "hi").2 =
      Json.obj [("accepted", .bool false)] ∧
    (rpcInput helloProvider {} 10 ⟨true, .idle, []⟩ "hi").1.messages = [] ∧
    (step ⟨helloProvider, {}, 10, true⟩ .idle [] "hi").result =
      .err "Aborted" :=
  aborted_signal_never_resets helloProvider {} 10 ⟨true, .idle, []⟩ "hi" rfl

/-- Claim C5: after stop has set the stopped flag, start may be called
again and behaves exactly as a start on a never-stopped server, because
the flag is reset on entry to start; without the reset the read loop
would consume no line, as the second conjunct shows. -/
theorem start_resets_stopped_flag :
    (∀ (handler : RpcHandler) (st : ServerState) (lines : List RawLine),
      startServer handler (stopServer st) lines =
        startServer handler ⟨false⟩ lines) ∧
    (∀ (handler : RpcHandler) (lines : List RawLine),
      serverLoop handler ⟨true⟩ lines = (⟨true⟩, [])) := by
  constructor
  · intro handler st lines
    rfl
  · intro handler lines
    cases lines <;> rfl

/-- Lookup after rewriting every binding of a key in an association list:
when the key is bound, the rewritten list binds it to the new value. -/
theorem lookup_map_overwrite (id : String) (v : MutableHandle) :
    ∀ (l : List (String × MutableHandle)), (l.lookup id).isSome →
      (l.map (fun e => if e.1 = id then (e.1, v) else e)).lookup id = some v := by
  intro l
  induction l with
  | nil => intro hsome; simp [List.lookup] at hsome
  | cons e rest ih =>
    obtain ⟨k, w⟩ := e
    intro hsome
    by_cases hk : k = id
    · subst hk
      simp only [List.map_cons, eq_self_iff_true, ite_true]
      simp [List.lookup]
    · have hne : (id == k) = false := by
        rw [beq_eq_false_iff_ne]
        exact fun hc => hk hc.symm
      have hsome2 : (rest.lookup id).isSome := by
        rw [List.lookup] at hsome
        rw [hne] at hsome
        exact hsome
      simp only [List.map_cons]
      rw [if_neg hk]
      rw [List.lookup]
      rw [hne]
      exact ih hsome2

/-- Claim C10: for a spawned sub-agent whose worker was started, stop
sets the status of the stored handle to failed regardless of the status
it had reached — in particular a completed handle is moved to failed. -/
theorem stop_sets_failed_unconditionally
    (handles : List (String × MutableHandle)) (id : String)
    (h : MutableHandle) (hlook : handles.lookup id = some h)
    (hw : h.hasWorker = true) :
    (runnerStop handles id).lookup id = some { h with status := .failed } := by
  simp only [runnerStop, hlook, hw, not_true_eq_false, if_false]
  exact lookup_map_overwrite id ⟨h.id, .failed, h.result, true⟩ handles
    (by rw [hlook]; rfl)

/-- Claim C10 witness: a completed handle with a live worker is forced to
failed by stop. -/
theorem stop_sets_failed_unconditionally_witness :
    (runnerStop [("a", ⟨"a", .completed, some "D", true⟩)] "a").lookup "a" =
      some ⟨"a", .failed, some "D", true⟩ :=
  stop_sets_failed_unconditionally
    [("a", ⟨"a", .completed, some "D", true⟩)] "a"
    ⟨"a", .completed, some "D", true⟩ (by rfl) (by rfl)

/-- Claim C1 (spec-modelled): a configUpdate naming an unknown provider
answers applied false and preserves the previous loop provider; a
configUpdate naming the configured claude provider with model m rebuilds
the provider and swaps the loop, answering applied true; empty params
leave the loop untouched. -/
theorem configUpdate_swaps_loop (st : ServeConfigState)
    (cfgC : ProviderConfig) (k : String)
    (hlook : st.config.providers.lookup "claude" = some cfgC)
    (hkey : cfgC.apiKey = some k) (hk : k ≠ "") :
    configUpdate st ⟨none, some "unknown", none⟩ = (st, false) ∧
    configUpdate st ⟨none, some "claude", some "m"⟩ =
      ({ st with loopProvider := ⟨"claude", "m", cfgC⟩ }, true) ∧
    configUpdate st ⟨none, none, none⟩ = (st, true) := by
  refine ⟨?_, ?_, ?_⟩
  · rfl
  · simp [configUpdate, hlook, createProvider, createClaudeProvider,
      truthyStr, hkey, hk]
  · rfl

/-- Claim C1 witness: the spec-modelled configUpdate on a concrete state
whose providers table carries a claude entry. -/
theorem configUpdate_swaps_loop_witness :
    configUpdate
      ⟨⟨"claude", "d-model", [("claude", ⟨some "key", none⟩)]⟩,
       ⟨"ollama", "llama3", ⟨none, none⟩⟩⟩
      ⟨none, some "unknown", none⟩ =
      (⟨⟨"claude", "d-model", [("claude", ⟨some "key", none⟩)]⟩,
        ⟨"ollama", "llama3", ⟨none, none⟩⟩⟩, false) ∧
    configUpdate
      ⟨⟨"claude", "d-model", [("claude", ⟨some "key", none⟩)]⟩,
       ⟨"ollama", "llama3", ⟨none, none⟩⟩⟩
      ⟨none, some "claude", some "m"⟩ =
      (⟨⟨"claude", "d-model", [("claude", ⟨some "key", none⟩)]⟩,
        ⟨"claude", "m", ⟨some "key", none⟩⟩⟩, true) ∧
    configUpdate
      ⟨⟨"claude", "d-model", [("claude", ⟨some "key", none⟩)]⟩,
       ⟨"ollama", "llama3", ⟨none, none⟩⟩⟩
      ⟨none, none, none⟩ =
      (⟨⟨"claude", "d-model", [("claude", ⟨some "key", none⟩)]⟩,
        ⟨"ollama", "llama3", ⟨none, none⟩⟩⟩, true) :=
  configUpdate_swaps_loop
    ⟨⟨"claude", "d-model", [("claude", ⟨some "key", none⟩)]⟩,
     ⟨"ollama", "llama3", ⟨none, none⟩⟩⟩
    ⟨some "key", none⟩ "key" (by rfl) (by rfl) (by decide)

/-- Claim C4: when a dispatched notification handler throws, the server
writes a log-level-warn notification carrying the error message to the
client, and the read loop continues with the remaining input lines
exactly as it would have processed them alone. -/
theorem notification_error_writes_warn_and_continues
    (handler : RpcHandler) (st : ServerState) (rest : List RawLine)
    (msg : Json) (emsg : String)
    (hn : isJsonRpcNotification msg = true)
    (hr : isJsonRpcRequest msg = false)
    (hth : handler (rpcMethod msg) (rpcParams msg) = .thrown emsg) :
    (startServer handler st (RawLine.parsed msg :: rest)).2 =
      encodeNotification "log"
        (some (Json.obj [("level", .str "warn"), ("message", .str emsg)])) ::
      (startServer handler st rest).2 := by
  simp [startServer, serverLoop, processLine, decodeJsonRpc,
    isJsonRpcIncoming, hn, hr, hth]

/-- Claim C4 witness: a concrete notification whose handler throws, fed
to a previously stopped server with one further line behind it. -/
theorem notification_error_writes_warn_witness :
    (startServer (fun _ _ => .thrown "boom") ⟨true⟩
      [RawLine.parsed (Json.obj [("jsonrpc", .str "2.0"), ("method", .str "x")]),
       RawLine.unparsable]).2 =
      encodeNotification "log"
        (some (Json.obj [("level", .str "warn"), ("message", .str "boom")])) ::
      (startServer (fun _ _ => .thrown "boom") ⟨true⟩ [RawLine.unparsable]).2 :=
  notification_error_writes_warn_and_continues
    (fun _ _ => .thrown "boom") ⟨true⟩ [RawLine.unparsable]
    (Json.obj [("jsonrpc", .str "2.0"), ("method", .str "x")]) "boom"
    (by rfl) (by rfl) (by rfl)

/-- Length accounting of the settled-result partition: every attempted
server lands either among the connections or among the warnings. -/
theorem collectSettled_length (results : List SettledOutcome) :
    ∀ acc : List McpConnection × List String,
      ((results.foldl
        (fun acc r =>
          match r with
          | .fulfilled (.ok c) => (acc.1 ++ [c], acc.2)
          | .fulfilled (.err e) => (acc.1, acc.2 ++ [e])
          | .rejected m => (acc.1, acc.2 ++ [m]))
        acc).1.length +
       (results.foldl
        (fun acc r =>
          match r with
          | .fulfilled (.ok c) => (acc.1 ++ [c], acc.2)
          | .fulfilled (.err e) => (acc.1, acc.2 ++ [e])
          | .rejected m => (acc.1, acc.2 ++ [m]))
        acc).2.length) = acc.1.length + acc.2.length + results.length := by
  induction results with
  | nil => intro acc; simp
  | cons r rest ih =>
    intro acc
    cases r with
    | fulfilled fr =>
      cases fr with
      | ok c =>
        simp only [List.foldl_cons]
        rw [ih]
        simp
        omega
      | err e =>
        simp only [List.foldl_cons]
        rw [ih]
        simp
        omega
    | rejected m =>
      simp only [List.foldl_cons]
      rw [ih]
      simp
      omega

/-- Claim C9: connectAll attempts every configured server (the partition
of the outcomes accounts for all of them); when at least one connection
succeeded the call returns ok carrying the connections and the
accumulated warnings; when there is at least one server and none
succeeded it returns err joining the individual diagnostics. -/
theorem connectAll_accumulates_warnings (servers : List McpServerConfig)
    (attempt : McpServerConfig → SettledOutcome) :
    ((collectSettled (servers.map attempt)).1.length +
      (collectSettled (servers.map attempt)).2.length = servers.length) ∧
    ((collectSettled (servers.map attempt)).1.length ≠ 0 →
      connectAll servers attempt =
        .ok ⟨(collectSettled (servers.map attempt)).1,
             (collectSettled (servers.map attempt)).2⟩) ∧
    (servers.length ≠ 0 → (collectSettled (servers.map attempt)).1.length = 0 →
      connectAll servers attempt =
        .err ("All MCP servers failed to connect: " ++
          String.intercalate "; " (collectSettled (servers.map attempt)).2)) := by
  have hlen : (collectSettled (servers.map attempt)).1.length +
      (collectSettled (servers.map attempt)).2.length = servers.length := by
    unfold collectSettled
    rw [collectSettled_length]
    simp
  refine ⟨hlen, ?_, ?_⟩
  · intro hne
    unfold connectAll
    rw [if_neg (by omega)]
    rw [if_neg (by intro hc; exact hne hc.1)]
  · intro hsv hzero
    unfold connectAll
    rw [if_neg hsv]
    rw [if_pos ⟨hzero, by omega⟩]

/-- Servers of the connectAll witness scenario. -/
def mcpServerA : McpServerConfig := ⟨"a", "cmd", []⟩

/-- Second server of the connectAll witness scenario. -/
def mcpServerB : McpServerConfig := ⟨"b", "cmd", []⟩

/-- Witness attempt outcome: server a fails, any other server connects. -/
def mcpAttemptMixed : McpServerConfig → SettledOutcome :=
  fun s =>
    if s.serverName = "a" then .fulfilled (.err "a down")
    else .fulfilled (.ok ⟨"b", []⟩)

/-- Witness attempt outcome: every server fails. -/
def mcpAttemptFail : McpServerConfig → SettledOutcome :=
  fun _ => .fulfilled (.err "a down")

/-- Claim C9 witness: two servers, the first failing and the second
succeeding, give ok with the collected warnings; a single failing server
gives the joined err. -/
theorem connectAll_accumulates_warnings_witness :
    ((collectSettled ([mcpServerA, mcpServerB].map mcpAttemptMixed)).1.length +
      (collectSettled ([mcpServerA, mcpServerB].map mcpAttemptMixed)).2.length = 2) ∧
    connectAll [mcpServerA, mcpServerB] mcpAttemptMixed =
      .ok ⟨(collectSettled ([mcpServerA, mcpServerB].map mcpAttemptMixed)).1,
           (collectSettled ([mcpServerA, mcpServerB].map mcpAttemptMixed)).2⟩ ∧
    connectAll [mcpServerA] mcpAttemptFail =
      .err ("All MCP servers failed to connect: " ++
        String.intercalate "; "
          (collectSettled ([mcpServerA].map mcpAttemptFail)).2) := by
  refine ⟨?_, ?_, ?_⟩
  · exact (connectAll_accumulates_warnings [mcpServerA, mcpServerB]
      mcpAttemptMixed).1
  · exact (connectAll_accumulates_warnings [mcpServerA, mcpServerB]
      mcpAttemptMixed).2.1
      (by simp [collectSettled, mcpAttemptMixed, mcpServerA, mcpServerB])
  · exact (connectAll_accumulates_warnings [mcpServerA] mcpAttemptFail).2.2
      (by simp) (by simp [collectSettled, mcpAttemptFail, mcpServerA])

/-- A provider that always answers with one tool call and no text. -/
def alwaysToolProvider (tc : ToolCall) :
    List Message → List Tool → WnResult LLMResponse :=
  fun _ _ => .ok { content := "", toolCalls := some [tc] }

/-- Claim C7: with a provider that always returns a tool call and
maxToolRounds three, step returns err whose message is exactly
Max tool rounds (3) reached — which contains the digit 3 — and the
handler receives exactly one onError notification. -/
theorem max_tool_rounds_err (tc : ToolCall) (input : String) :
    (step ⟨alwaysToolProvider tc, {}, 3, false⟩ .idle [] input).result =
      .err "Max tool rounds (3) reached" ∧
    "3".data <:+: "Max tool rounds (3) reached".data ∧
    ((step ⟨alwaysToolProvider tc, {}, 3, false⟩ .idle [] input).events.countP
      LoopEvent.isError) = 1 := by
  have h3 : "Max tool rounds (" ++ toString (3 : Nat) ++ ") reached" =
      "Max tool rounds (3) reached" := rfl
  refine ⟨?_, by decide, ?_⟩
  · rw [← h3]; rfl
  · rfl

/-- The registered tool of the unknown-tool scenario. -/
def echoTool : ToolDefinition :=
  ⟨"echo", "", Json.obj [], fun _ => ⟨true, "echo-ok", none⟩⟩

/-- Registry holding only the echo builtin. -/
def echoRegistry : ToolRegistry := { builtins := [("echo", echoTool)] }

/-- Provider of the unknown-tool scenario: on the first round (history of
one message) it requests the unknown tool and then echo; on the next
round it answers done. -/
def unknownThenDoneProvider (nm : String) :
    List Message → List Tool → WnResult LLMResponse :=
  fun msgs _ =>
    if msgs.length = 1 then
      .ok { content := "",
            toolCalls := some [⟨"X", nm, []⟩, ⟨"Y", "echo", []⟩] }
    else .ok { content := "done" }

/-- Claim C8: when the model requests a tool that is not registered, step
does not fail: a tool-result message Tool not found (with the original
call id and name) is appended, the remaining tool call of the response is
still executed, and the provider is called again on the next round,
whose text answer step returns as ok. -/
theorem unknown_tool_continues (nm : String) (h : nm ≠ "echo") :
    (step ⟨unknownThenDoneProvider nm, echoRegistry, 5, false⟩ .idle []
      "go").result = .ok "done" ∧
    (step ⟨unknownThenDoneProvider nm, echoRegistry, 5, false⟩ .idle []
      "go").messages =
      [{ role := .user, content := "go" },
       { role := .assistant, content := "",
         toolCalls := some [⟨"X", nm, []⟩, ⟨"Y", "echo", []⟩] },
       { role := .user, content := "Tool not found: " ++ nm,
         toolCallId := some "X", resultName := some nm },
       { role := .user, content := "echo-ok", toolCallId := some "Y",
         resultName := some "echo" },
       { role := .assistant, content := "done" }] := by
  have hb : (nm == "echo") = false := by
    rw [beq_eq_false_iff_ne]
    exact h
  constructor
  · simp [step, stepRounds, runToolCalls, unknownThenDoneProvider,
      echoRegistry, ToolRegistry.get, echoTool, List.lookup, hb]
  · simp [step, stepRounds, runToolCalls, unknownThenDoneProvider,
      echoRegistry, ToolRegistry.get, echoTool, List.lookup, hb]

/-- Claim C8 witness: the unknown tool named nonexistent. -/
theorem unknown_tool_continues_witness :
    (step ⟨unknownThenDoneProvider "nonexistent", echoRegistry, 5, false⟩
      .idle [] "go").result = .ok "done" ∧
    (step ⟨unknownThenDoneProvider "nonexistent", echoRegistry, 5, false⟩
      .idle [] "go").messages =
      [{ role := .user, content := "go" },
       { role := .assistant, content := "",
         toolCalls := some [⟨"X", "nonexistent", []⟩, ⟨"Y", "echo", []⟩] },
       { role := .user, content := "Tool not found: " ++ "nonexistent",
         toolCallId := some "X", resultName := some "nonexistent" },
       { role := .user, content := "echo-ok", toolCallId := some "Y",
         resultName := some "echo" },
       { role := .assistant, content := "done" }] :=
  unknown_tool_continues "nonexistent" (by decide)

/-- The stream invariant under scrutiny: exactly one done chunk and the
final chunk is it. -/
def exactlyOneDoneLast (out : List StreamChunk) : Prop :=
  out.countP StreamChunk.isDone = 1 ∧
  out.getLast?.map StreamChunk.isDone = some true

/-- Recognizer for the Claude message_stop event. -/
def isMessageStopEvt : ClaudeEvent → Bool
  | .messageStop => true
  | _ => false

/-- A chunk list with no done chunk followed by one done chunk satisfies
the invariant. -/
theorem exactlyOneDoneLast_concat (pre : List StreamChunk)
    (u : Option TokenUsage) (h : pre.countP StreamChunk.isDone = 0) :
    exactlyOneDoneLast (pre ++ [StreamChunk.done u]) := by
  constructor
  · rw [List.countP_append, h]
    rfl
  · rw [List.getLast?_concat]
    rfl

/-- Appending a suffix to the processed Claude event list appends its
chunks: processing is local to each event, so a terminal message_stop
contributes exactly the final done chunk. -/
theorem claudeStreamGo_concat_stop
    (p : String → Option (List (String × Json))) (u : TokenUsage) :
    ∀ (init : List ClaudeEvent) (blocks : List (Nat × ClaudeToolBlock)),
      claudeStreamGo p u blocks (init ++ [ClaudeEvent.messageStop]) =
        claudeStreamGo p u blocks init ++ [StreamChunk.done (some u)] := by
  intro init
  induction init with
  | nil => intro blocks; rfl
  | cons e rest ih =>
    intro blocks
    cases e with
    | blockStart s =>
      simp only [List.cons_append, claudeStreamGo, List.append_eq]
      split
      · exact ih _
      · exact ih _
    | blockDelta d =>
      simp only [List.cons_append, claudeStreamGo, List.append_eq]
      split
      · rw [ih]
        rfl
      · split
        · split
          · exact ih _
          · exact ih _
        · exact ih _
    | blockStop idx =>
      simp only [List.cons_append, claudeStreamGo, List.append_eq]
      split
      · rw [ih]
        rfl
      · exact ih _
    | messageStop =>
      simp only [List.cons_append, claudeStreamGo, List.append_eq]
      rw [ih]
    | otherEvent t =>
      simp only [List.cons_append, claudeStreamGo, List.append_eq]
      exact ih _

/-- A message_stop-free Claude event list emits no done chunk. -/
theorem claudeStreamGo_no_stop_no_done
    (p : String → Option (List (String × Json))) (u : TokenUsage) :
    ∀ (events : List ClaudeEvent) (blocks : List (Nat × ClaudeToolBlock)),
      events.countP isMessageStopEvt = 0 →
      (claudeStreamGo p u blocks events).countP StreamChunk.isDone = 0 := by
  intro events
  induction events with
  | nil => intro blocks _; rfl
  | cons e rest ih =>
    intro blocks h
    rw [List.countP_cons] at h
    cases e with
    | blockStart s =>
      simp only [claudeStreamGo]
      split
      · exact ih _ (by omega)
      · exact ih _ (by omega)
    | blockDelta d =>
      simp only [claudeStreamGo]
      split
      · rw [List.countP_cons, ih _ (by omega)]
        rfl
      · split
        · split
          · exact ih _ (by omega)
          · exact ih _ (by omega)
        · exact ih _ (by omega)
    | blockStop idx =>
      simp only [claudeStreamGo]
      split
      · rw [List.countP_cons, ih _ (by omega)]
        rfl
      · exact ih _ (by omega)
    | messageStop =>
      simp [isMessageStopEvt] at h
    | otherEvent t =>
      simp only [claudeStreamGo]
      exact ih _ (by omega)

/-- A list whose members are all non-done has done count zero. -/
theorem countP_isDone_zero (l : List StreamChunk)
    (h : ∀ c ∈ l, StreamChunk.isDone c = false) :
    l.countP StreamChunk.isDone = 0 := by
  rw [List.countP_eq_zero]
  intro a ha
  simp [h a ha]

/-- The per-chunk Ollama emissions before the done check carry no done
chunk. -/
theorem ollamaEmit_no_done (genId : Nat → String) (counter : Nat)
    (c : OllamaChunkIn) :
    (ollamaEmit genId counter c).countP StreamChunk.isDone = 0 := by
  apply countP_isDone_zero
  intro x hx
  simp only [ollamaEmit] at hx
  split at hx
  · simp only [List.mem_map] at hx
    obtain ⟨e, _, he⟩ := hx
    rw [← he]
    rfl
  · split at hx
    · simp only [List.mem_singleton] at hx
      rw [hx]
      rfl
    · simp at hx

/-- The Ollama stream emits one done chunk per vendor chunk whose done
flag is set. -/
theorem ollamaStreamGo_countP_done (genId : Nat → String) :
    ∀ (chunks : List OllamaChunkIn) (counter : Nat),
      (ollamaStreamGo genId counter chunks).countP StreamChunk.isDone =
        chunks.countP (fun c => c.isLast) := by
  intro chunks
  induction chunks with
  | nil => intro counter; rfl
  | cons c rest ih =>
    intro counter
    cases hc : c.isLast
    · simp [ollamaStreamGo, List.countP_append, List.countP_cons,
        ollamaEmit_no_done, ih, hc]
    · simp [ollamaStreamGo, List.countP_append, List.countP_cons,
        ollamaEmit_no_done, ih, hc, StreamChunk.isDone]

/-- Splitting the Ollama stream at a list boundary: the counter advances
by the number of tool calls in the prefix. -/
theorem ollamaStreamGo_append (genId : Nat → String) :
    ∀ (xs ys : List OllamaChunkIn) (counter : Nat),
      ollamaStreamGo genId counter (xs ++ ys) =
        ollamaStreamGo genId counter xs ++
        ollamaStreamGo genId (counter + (xs.map ollamaTcsLen).sum) ys := by
  intro xs
  induction xs with
  | nil => intro ys counter; simp [ollamaStreamGo]
  | cons x rest ih =>
    intro ys counter
    simp only [List.cons_append, ollamaStreamGo, List.append_eq]
    rw [ih]
    simp [List.append_assoc, Nat.add_assoc, List.map_cons, List.sum_cons]

/-- The OpenAI per-chunk choice emissions carry no done chunk. -/
theorem oaChoiceStep_no_done (p : String → Option (List (String × Json)))
    (accs : List (Nat × OAAcc)) (choices : List OAChoice) :
    (oaChoiceStep p accs choices).1.countP StreamChunk.isDone = 0 := by
  apply countP_isDone_zero
  intro x hx
  simp only [oaChoiceStep] at hx
  cases hh : choices.head? with
  | none =>
    rw [hh] at hx
    simp at hx
  | some choice =>
    rw [hh] at hx
    simp only [] at hx
    split at hx
    · simp only [List.mem_append, List.mem_map] at hx
      rcases hx with hx | hx
      · split at hx
        · simp only [List.mem_singleton] at hx
          rw [hx]
          rfl
        · simp at hx
      · obtain ⟨e, _, he⟩ := hx
        rw [← he]
        rfl
    · split at hx
      · simp only [List.mem_singleton] at hx
        rw [hx]
        rfl
      · simp at hx

/-- A usage-free OpenAI chunk emits no done chunk and leaves the
doneEmitted flag clear. -/
theorem processOAChunk_no_usage (p : String → Option (List (String × Json)))
    (accs : List (Nat × OAAcc)) (c : OAChunk) (h : c.usage = none) :
    (processOAChunk p accs c).1.countP StreamChunk.isDone = 0 ∧
    (processOAChunk p accs c).2.2 = false := by
  simp only [processOAChunk, h]
  exact ⟨oaChoiceStep_no_done p accs c.choices, trivial⟩

/-- A usage-carrying OpenAI chunk ends its emissions with one done chunk
and sets the doneEmitted flag. -/
theorem processOAChunk_usage (p : String → Option (List (String × Json)))
    (accs : List (Nat × OAAcc)) (c : OAChunk) (u0 : OAUsage)
    (h : c.usage = some u0) :
    (processOAChunk p accs c).1 =
      (oaChoiceStep p accs c.choices).1 ++
        [StreamChunk.done (toTokenUsage (some u0))] ∧
    (processOAChunk p accs c).2.2 = true := by
  simp [processOAChunk, h]

/-- OpenAI well-formed stream: when every chunk but possibly the final
one is usage-free, the output is a done-free prefix followed by one
final done chunk (from the usage chunk, or from the end-of-stream
fallback). -/
theorem openaiGo_wf (p : String → Option (List (String × Json))) :
    ∀ (chunks : List OAChunk) (accs : List (Nat × OAAcc)),
      (∀ c ∈ chunks.dropLast, c.usage = none) →
      ∃ (pre : List StreamChunk) (u : Option TokenUsage),
        openaiStreamGo p accs false chunks =
          pre ++ [StreamChunk.done u] ∧
        pre.countP StreamChunk.isDone = 0 := by
  intro chunks
  induction chunks with
  | nil =>
    intro accs _
    exact ⟨[], none, by simp [openaiStreamGo], rfl⟩
  | cons c rest ih =>
    intro accs h
    cases rest with
    | nil =>
      cases hu : c.usage with
      | none =>
        obtain ⟨hcnt, hflag⟩ := processOAChunk_no_usage p accs c hu
        refine ⟨(processOAChunk p accs c).1, none, ?_, hcnt⟩
        simp [openaiStreamGo, hflag]
      | some u0 =>
        obtain ⟨heq, hflag⟩ := processOAChunk_usage p accs c u0 hu
        refine ⟨(oaChoiceStep p accs c.choices).1,
          toTokenUsage (some u0), ?_, oaChoiceStep_no_done p accs c.choices⟩
        simp [openaiStreamGo, heq, hflag]
    | cons r rs =>
      have hdl : (c :: r :: rs).dropLast = c :: (r :: rs).dropLast := rfl
      have hc : c.usage = none := by
        apply h
        rw [hdl]
        exact List.mem_cons_self _ _
      obtain ⟨hcnt, hflag⟩ := processOAChunk_no_usage p accs c hc
      obtain ⟨pre1, u, heq1, hcnt1⟩ :=
        ih (processOAChunk p accs c).2.1
          (fun x hx => h x (by rw [hdl, List.mem_cons]; exact Or.inr hx))
      refine ⟨(processOAChunk p accs c).1 ++ pre1, u, ?_, ?_⟩
      · simp only [openaiStreamGo, hflag, Bool.false_or] at heq1 ⊢
        rw [heq1, List.append_assoc]
      · rw [List.countP_append, hcnt, hcnt1]

/-- Gemini per-chunk part emissions carry no done chunk. -/
theorem geminiParts_no_done (g : Nat → String) :
    ∀ (parts : List GeminiPart) (counter : Nat),
      (geminiParts g counter parts).1.countP StreamChunk.isDone = 0 := by
  intro parts
  induction parts with
  | nil => intro counter; rfl
  | cons pt rest ih =>
    intro counter
    simp only [geminiParts]
    cases hfc : pt.functionCall with
    | some fc =>
      simp only [List.countP_append, ih, List.countP_cons]
      have htext : (if truthyStr pt.text then
          [StreamChunk.delta (pt.text.getD "")] else []).countP
          StreamChunk.isDone = 0 := by
        split <;> rfl
      simp [htext, StreamChunk.isDone]
    | none =>
      simp only [List.countP_append, ih]
      have htext : (if truthyStr pt.text then
          [StreamChunk.delta (pt.text.getD "")] else []).countP
          StreamChunk.isDone = 0 := by
        split <;> rfl
      simp [htext]

/-- The Gemini chunk loop emits no done chunk. -/
theorem geminiStreamGo_no_done (g : Nat → String) :
    ∀ (chunks : List (List GeminiPart)) (counter : Nat),
      (geminiStreamGo g counter chunks).countP StreamChunk.isDone = 0 := by
  intro chunks
  induction chunks with
  | nil => intro counter; rfl
  | cons parts rest ih =>
    intro counter
    simp only [geminiStreamGo, List.countP_append, geminiParts_no_done, ih]

/-- Claim C6 counterexample: the quantification over every vendor event
stream fails — feeding the Ollama adapter a stream whose two chunks both
carry the done flag yields two done chunks, not exactly one. -/
theorem stream_two_done_counterexample :
    ¬ ((ollamaStream (fun _ => "u")
        [{ message := none, isLast := true },
         { message := none, isLast := true }]).countP
        StreamChunk.isDone = 1) := by
  have h2 : (ollamaStream (fun _ => "u")
      [{ message := none, isLast := true },
       { message := none, isLast := true }]).countP
      StreamChunk.isDone = 2 := rfl
  rw [h2]
  omega

/-- Claim C6 (amended): for well-formed vendor event streams — Claude: a
message_stop-free prefix closed by one message_stop; Ollama: chunks with
the done flag clear closed by one chunk with it set; OpenAI: every chunk
except possibly the final one without usage; Gemini: any stream — the
canonical sequence contains exactly one done chunk, and it is the last
element. -/
theorem streams_one_done_when_wellformed :
    (∀ (p : String → Option (List (String × Json))) (u : TokenUsage)
       (init : List ClaudeEvent), init.countP isMessageStopEvt = 0 →
       exactlyOneDoneLast (claudeStream p u (init ++ [ClaudeEvent.messageStop]))) ∧
    (∀ (g : Nat → String) (init : List OllamaChunkIn) (c : OllamaChunkIn),
       (∀ x ∈ init, x.isLast = false) → c.isLast = true →
       exactlyOneDoneLast (ollamaStream g (init ++ [c]))) ∧
    (∀ (p : String → Option (List (String × Json))) (chunks : List OAChunk),
       (∀ c ∈ chunks.dropLast, c.usage = none) →
       exactlyOneDoneLast (openaiStream p chunks)) ∧
    (∀ (g : Nat → String) (meta : Option GeminiUsageMeta)
       (chunks : List (List GeminiPart)),
       exactlyOneDoneLast (geminiStream g meta chunks)) := by
  refine ⟨?_, ?_, ?_, ?_⟩
  · intro p u init h
    unfold claudeStream
    rw [claudeStreamGo_concat_stop]
    exact exactlyOneDoneLast_concat _ _
      (claudeStreamGo_no_stop_no_done p u init [] h)
  · intro g init c hinit hc
    constructor
    · unfold ollamaStream
      rw [ollamaStreamGo_countP_done, List.countP_append, List.countP_cons]
      have hz : init.countP (fun x => x.isLast) = 0 := by
        rw [List.countP_eq_zero]
        intro a ha
        simp [hinit a ha]
      simp [hz, hc]
    · unfold ollamaStream
      rw [ollamaStreamGo_append]
      have hone : ollamaStreamGo g (0 + (init.map ollamaTcsLen).sum) [c] =
          (ollamaEmit g (0 + (init.map ollamaTcsLen).sum) c ++
            [StreamChunk.done (ollamaConvertUsage c.promptEvalCount c.evalCount)]) := by
        simp [ollamaStreamGo, hc]
      rw [hone, ← List.append_assoc, List.getLast?_concat]
      rfl
  · intro p chunks h
    obtain ⟨pre, u, heq, hcnt⟩ := openaiGo_wf p chunks [] h
    unfold openaiStream
    rw [heq]
    exact exactlyOneDoneLast_concat pre u hcnt
  · intro g meta chunks
    unfold geminiStream
    exact exactlyOneDoneLast_concat _ _ (geminiStreamGo_no_done g chunks 0)

/-- Claim C6 witness: the amended statement applied to a minimal
well-formed stream of each adapter. -/
theorem streams_one_done_when_wellformed_witness :
    exactlyOneDoneLast (claudeStream (fun _ => none) ⟨1, 2⟩
      ([] ++ [ClaudeEvent.messageStop])) ∧
    exactlyOneDoneLast (ollamaStream (fun _ => "u")
      ([] ++ [{ message := none, isLast := true }])) ∧
    exactlyOneDoneLast (openaiStream (fun _ => none) []) ∧
    exactlyOneDoneLast (geminiStream (fun _ => "u") none []) :=
  ⟨streams_one_done_when_wellformed.1 (fun _ => none) ⟨1, 2⟩ [] rfl,
   streams_one_done_when_wellformed.2.1 (fun _ => "u") []
     { message := none, isLast := true } (by intro x hx; simp at hx) rfl,
   streams_one_done_when_wellformed.2.2.1 (fun _ => none) []
     (by intro c hc; simp at hc),
   streams_one_done_when_wellformed.2.2.2 (fun _ => "u") none []⟩

end WnCore
